import Mathlib

/-!
# pck8s `realloc`: the resource-command model

A shallow embedding of the two programs of the repository:

* `agent/realloc-agent.go` — the node agent: `post`, `parse`, `ParseCPU`,
  `ParseMemory`, `ParseBandwidth`, `Args`, `cpuForDocker`;
* `plugin/realloc.go` — the resolver: `init`, `main`, `buildQuery`, `getPodConfig`,
  `GetContainerID`, `GetHost`.

Go strings are modelled by Lean strings (sequences of Unicode code points, that is
Go strings holding valid UTF-8); `int64` is modelled by `Int` with explicit
wrap-around (`wrapInt64`); a Go `error` result is an `Option GoError`, `none` being
`nil`; a method with a pointer receiver takes the command and returns the updated
command together with its error. The external collaborators (the runtime executor,
the cluster-state CLI, the JSON decoder, the HTTP exchange) are parameters of the
functions that call them.
-/

namespace Realloc

/-! ## The Go runtime: errors, `int64`, `strconv`, `strings`, `fmt` -/

/-- The two error kinds of `strconv` (`ErrSyntax`, `ErrRange`). -/
inductive NumErrKind
  | ErrSyntax
  | ErrRange
deriving DecidableEq

/-- A Go `error` value: either made by `fmt.Errorf` (a message), or a
`*strconv.NumError` (function name, offending text, kind). -/
inductive GoError
  | errorf (msg : String)
  | numError (fn : String) (num : String) (kind : NumErrKind)
deriving DecidableEq

/-- Two's-complement reduction of a mathematical integer to the `int64` range. -/
def wrapInt64 (x : Int) : Int := (x + 2 ^ 63) % 2 ^ 64 - 2 ^ 63

/-- The largest `uint64`. -/
def maxUint64 : Nat := 2 ^ 64 - 1

/-- The loop of `strconv.ParseUint(s, 10, 64)`, `n` being the value read so far.
In base 10 every byte that is not a decimal digit ends in `ErrSyntax` (a letter
gives a digit value of at least 10). The result is the value and the error kind. -/
def strconv.parseUintLoop : List Char → Nat → Nat × Option NumErrKind
  | [], n => (n, none)
  | c :: cs, n =>
    if '0' ≤ c ∧ c ≤ '9' then
      let d := c.toNat - '0'.toNat
      if n ≥ maxUint64 / 10 + 1 then (maxUint64, some .ErrRange)
      else
        let n10 := n * 10
        let n1 := (n10 + d) % 2 ^ 64
        if n1 < n10 ∨ n1 > maxUint64 then (maxUint64, some .ErrRange)
        else strconv.parseUintLoop cs n1
    else (0, some .ErrSyntax)

/-- Go `strconv.ParseUint(s, 10, 64)`: the empty text is a syntax error. -/
def strconv.ParseUint (s : List Char) : Nat × Option NumErrKind :=
  match s with
  | [] => (0, some .ErrSyntax)
  | _ => strconv.parseUintLoop s 0

/-- Go `strconv.ParseInt(s, 10, 64)`: an optional sign, then `ParseUint`, then the
range check against `1 << 63`. Returns the value and the error. -/
def strconv.ParseInt (s : String) : Int × Option GoError :=
  match s.data with
  | [] => (0, some (.numError "ParseInt" s .ErrSyntax))
  | c :: rest =>
    let neg : Bool := c = '-'
    let body := if c = '+' ∨ c = '-' then rest else c :: rest
    match strconv.ParseUint body with
    | (_, some .ErrSyntax) => (0, some (.numError "ParseInt" s .ErrSyntax))
    | (un, _) =>
      if !neg ∧ un ≥ 2 ^ 63 then (2 ^ 63 - 1, some (.numError "ParseInt" s .ErrRange))
      else if neg ∧ un > 2 ^ 63 then (-(2 ^ 63), some (.numError "ParseInt" s .ErrRange))
      else
        let n := wrapInt64 un
        (if neg then wrapInt64 (-n) else n, none)

/-- The verb `%d` of `fmt.Sprintf` on an `int64`: decimal digits, a leading `-` for
a negative number. -/
def formatInt (n : Int) : String :=
  match n with
  | .ofNat m => Nat.repr m
  | .negSucc m => "-" ++ Nat.repr (m + 1)

/-- Go `strings.Contains(s, sub)` for a one-byte `sub`. -/
def strings.Contains (s : String) (sub : Char) : Bool := s.data.contains sub

/-- Splitting a character list at every occurrence of `sep`. -/
def strings.splitChars (sep : Char) : List Char → List (List Char)
  | [] => [[]]
  | c :: cs =>
    if c = sep then [] :: strings.splitChars sep cs
    else
      match strings.splitChars sep cs with
      | [] => [[c]]
      | p :: ps => (c :: p) :: ps

/-- Go `strings.Split(s, sep)` for a one-byte `sep`. -/
def strings.Split (s : String) (sep : Char) : List String :=
  (strings.splitChars sep s.data).map String.mk

/-- Go `strings.TrimLeft(s, cutset)`: drops every leading code point that occurs in
`cutset` (a set of characters, not a text to match). -/
def strings.TrimLeft (s : String) (cutset : String) : String :=
  String.mk (s.data.dropWhile fun c => cutset.data.contains c)

/-- Go `strings.TrimRight(s, cutset)`: drops every trailing code point that occurs
in `cutset`. -/
def strings.TrimRight (s : String) (cutset : String) : String :=
  String.mk (s.data.rdropWhile fun c => cutset.data.contains c)

/-- Go `strings.ToLower` on a text of ASCII characters (the only texts it is applied
to here are runs of ASCII letters). -/
def strings.ToLower (s : String) : String := String.mk (s.data.map Char.toLower)

/-- Go `strings.ToUpper` on a text of ASCII characters. -/
def strings.ToUpper (s : String) : String := String.mk (s.data.map Char.toUpper)

/-- Go `strings.Replace(s, old, "", 1)` for a one-byte `old`: the first occurrence of
`old` is removed, later ones stay. -/
def strings.ReplaceFirst (s : String) (old : Char) : String :=
  String.mk (s.data.erase old)

/-- Go `len(s)` on a text of ASCII characters: its number of bytes. -/
def len (s : String) : Nat := s.data.length

/-- One step of Go `strings.EqualFold`: two code points are equal under simple case
folding. Below `utf8.RuneSelf` this is the ASCII test of the source; for a pair
reaching beyond ASCII the orbit test of `unicode.SimpleFold` (a table of the Go
library) is the parameter `orbit`, applied to the smaller and the larger one. -/
def strings.equalFoldRune (orbit : Char → Char → Bool) (a b : Char) : Bool :=
  if a = b then true
  else
    let sr := if b < a then b else a
    let tr := if b < a then a else b
    if tr.toNat < 0x80 then
      decide ('A' ≤ sr ∧ sr ≤ 'Z' ∧ tr.toNat = sr.toNat + 'a'.toNat - 'A'.toNat)
    else orbit sr tr

/-- Go `strings.EqualFold(s, t)` on code-point lists. -/
def strings.equalFoldChars (orbit : Char → Char → Bool) : List Char → List Char → Bool
  | [], [] => true
  | a :: s, b :: t => strings.equalFoldRune orbit a b && strings.equalFoldChars orbit s t
  | _, _ => false

/-- Go `strings.EqualFold(s, t)`. -/
def strings.EqualFold (orbit : Char → Char → Bool) (s t : String) : Bool :=
  strings.equalFoldChars orbit s.data t.data

/-! ## The agent (`agent/realloc-agent.go`) -/

namespace agent

/-- Go `type Resource string`. -/
abbrev Resource := String

/-- The constant `CPU`. -/
def CPU : Resource := "cpu"
/-- The constant `Memory`. -/
def Memory : Resource := "memory"
/-- The constant `Bandwidth`. -/
def Bandwidth : Resource := "bandwidth"

/-- The struct `ResourceCommand`. -/
structure ResourceCommand where
  Resource : Resource
  Value : Int
  Units : String
  Container : String
deriving DecidableEq

/-- The constant `minShares`. -/
def minShares : Int := 2
/-- The constant `sharesPerCPU`. -/
def sharesPerCPU : Int := 1024
/-- The constant `milliCPUToCPU`. -/
def milliCPUToCPU : Int := 1000

/-- The function `cpuForDocker`: `int64` multiplication wraps around, `int64`
division truncates toward zero. -/
def cpuForDocker (milliCPU : Int) : Int :=
  if milliCPU = 0 then minShares
  else
    let shares := Int.tdiv (wrapInt64 (milliCPU * sharesPerCPU)) milliCPUToCPU
    if shares < minShares then minShares else shares

/-- The method `Args`: the argument vector for the runtime, empty for a resource
outside the three constants. -/
def Args (cmd : ResourceCommand) : List String :=
  if cmd.Resource = CPU then
    ["update", cmd.Container, "--cpu-shares=" ++ formatInt cmd.Value ++ cmd.Units]
  else if cmd.Resource = Memory then
    ["update", cmd.Container, "--memory=" ++ formatInt cmd.Value ++ cmd.Units]
  else if cmd.Resource = Bandwidth then
    ["exec", cmd.Container,
      "sh -c \"tc qdisc add dev eth0 root tbf rate " ++ formatInt cmd.Value ++ cmd.Units
        ++ " latency 50ms burst " ++ formatInt cmd.Value
        ++ strings.TrimRight cmd.Units "bps" ++ "\""]
  else []

/-- One turn of the scanning loop of `ParseBandwidth` and `ParseMemory`: a letter is
appended to `units`, a digit to `val`, anything else is skipped. -/
def scanStep (acc : List Char × List Char) (r : Char) : List Char × List Char :=
  if 'A' ≤ r ∧ r ≤ 'Z' then (acc.1, acc.2 ++ [r])
  else if 'a' ≤ r ∧ r ≤ 'z' then (acc.1, acc.2 ++ [r])
  else if '0' ≤ r ∧ r ≤ '9' then (acc.1 ++ [r], acc.2)
  else acc

/-- The scanning loop `for _, r := range s`: the pair `(val, units)`. -/
def scan (s : String) : List Char × List Char := s.data.foldl scanStep ([], [])

/-- The method `ParseBandwidth`. `Value` is assigned whatever `ParseInt` returns, also
when it fails. -/
def ParseBandwidth (cmd : ResourceCommand) (bw : String) : ResourceCommand × Option GoError :=
  let (val, units) := scan bw
  let (v, err) := strconv.ParseInt (String.mk val)
  let cmd := { cmd with Value := v }
  match err with
  | some e => (cmd, some e)
  | none =>
    let u := strings.ToLower (String.mk units)
    if u ≠ "kbps" ∧ u ≠ "mbps" ∧ u ≠ "gbps" then
      (cmd, some (.errorf "invalid bandwidth units"))
    else ({ cmd with Units := u }, none)

/-- The method `ParseCPU`. -/
def ParseCPU (cmd : ResourceCommand) (cpu : String) : ResourceCommand × Option GoError :=
  if !strings.Contains cpu 'm' then
    (cmd, some (.errorf "cpu must be specified in millicores"))
  else
    match strings.Split cpu 'm' with
    | [] => (cmd, some (.errorf "invalid cpus specified ([])"))
    | p0 :: _ =>
      match strconv.ParseInt p0 with
      | (_, some e) => (cmd, some e)
      | (v, none) => ({ cmd with Value := cpuForDocker v }, none)

/-- The method `ParseMemory`. -/
def ParseMemory (cmd : ResourceCommand) (mem : String) : ResourceCommand × Option GoError :=
  let (val, units) := scan mem
  let (v, err) := strconv.ParseInt (String.mk val)
  let cmd := { cmd with Value := v }
  match err with
  | some e => (cmd, some e)
  | none =>
    let u := strings.ToUpper (strings.ReplaceFirst (String.mk units) 'i')
    if len u > 1 then (cmd, some (.errorf "invalid memory format"))
    else ({ cmd with Units := u }, none)

/-- Go `url.Values`: the decoded query, each key with its values. -/
abbrev Values := List (String × List String)

/-- Go `url.Values.Get`: the first value of the key, the empty text when there is
none. -/
def Values.Get (q : Values) (key : String) : String :=
  match q.lookup key with
  | some (v :: _) => v
  | _ => ""

/-- The part of a `*url.URL` that `parse` reads: the decoded query `u.Query()`. -/
structure URL where
  Query : Values

/-- The function `parse`: the command (`none` for `nil`) and the error. -/
def parse (u : URL) : Option ResourceCommand × Option GoError :=
  let q := u.Query
  let res := Values.Get q "resource"
  if res = "" then (none, some (.errorf "resource not specified"))
  else
    let value := Values.Get q "value"
    if value = "" then (none, some (.errorf "no set value specified"))
    else
      let container := Values.Get q "container"
      if container = "" then (none, some (.errorf "no container specified"))
      else
        let cmd : ResourceCommand :=
          { Resource := res, Value := 0, Units := "", Container := container }
        let r : Option (ResourceCommand × Option GoError) :=
          if cmd.Resource = CPU then some (ParseCPU cmd value)
          else if cmd.Resource = Memory then some (ParseMemory cmd value)
          else if cmd.Resource = Bandwidth then some (ParseBandwidth cmd value)
          else none
        match r with
        | none => (none, some (.errorf ("unsupported resource (" ++ res ++ ")")))
        | some (_, some e) => (none, some e)
        | some (cmd, none) => (some cmd, none)

/-- The part of an `*http.Request` that the handler reads: the method and the URL. -/
structure Request where
  Method : String
  URL : URL

/-- What the handler writes as the body of its response: the fixed text of
`http.Error`, the text `err.Error()` of an error, or the JSON object of `respond`
with the runtime output under the field `output`. -/
inductive Body
  | text (msg : String)
  | errorText (err : GoError)
  | output (out : String)
deriving DecidableEq

/-- The response of the handler: the HTTP status and the body. -/
structure Response where
  status : Nat
  body : Body
deriving DecidableEq

/-- The handler `post`. The runtime executor (`exec.Command("docker", args...)` with
`cmd.Output()`) is the parameter `docker`, from the argument vector to the output
or the error. The result is the response written (`none` if the handler
dereferences a `nil` command) and the argument vectors handed to the executor,
in order. Printing to the standard output is left out. -/
def post (docker : List String → Except GoError String) (r : Request) :
    Option Response × List (List String) :=
  if r.Method ≠ "POST" then (some ⟨405, .text "method not allowed"⟩, [])
  else
    match parse r.URL with
    | (_, some err) => (some ⟨400, .errorText err⟩, [])
    | (none, none) => (none, [])
    | (some command, none) =>
      match docker (Args command) with
      | .error err => (some ⟨500, .errorText err⟩, [Args command])
      | .ok out => (some ⟨200, .output out⟩, [Args command])

end agent

/-! ## The resolver (`plugin/realloc.go`) -/

namespace plugin

/-- An entry of `Status.ContainerStatuses`, with the two fields the resolver reads. -/
structure ContainerStatus where
  ContainerID : String
  Name : String

/-- The struct `PodConfiguration`, reduced to the fields of `Status` that the
resolver reads: the container statuses and the host address. -/
structure PodConfiguration where
  ContainerStatuses : List ContainerStatus
  HostIP : String

/-- The loop of `GetContainerID` over the container statuses. -/
def getContainerIDLoop (orbit : Char → Char → Bool) (name : String) :
    List ContainerStatus → Option String × Option GoError
  | [] => (none, some (.errorf "container not found"))
  | container :: rest =>
    if strings.EqualFold orbit container.Name name then
      (some (strings.TrimLeft container.ContainerID "docker://"), none)
    else getContainerIDLoop orbit name rest

/-- The method `GetContainerID`. -/
def GetContainerID (orbit : Char → Char → Bool) (pc : PodConfiguration) (name : String) :
    Option String × Option GoError :=
  getContainerIDLoop orbit name pc.ContainerStatuses

/-- The method `GetHost`. -/
def GetHost (pc : PodConfiguration) : String := pc.HostIP

/-- Go `type Resource string`. -/
abbrev Resource := String

/-- The constant `CPU`. -/
def CPU : Resource := "cpu"
/-- The constant `Memory`. -/
def Memory : Resource := "memory"
/-- The constant `Bandwidth`. -/
def Bandwidth : Resource := "bandwidth"

/-- The package variables that `init` fills from the environment (`namespace_` is the
variable `namespace`). -/
structure Flags where
  cpu : String
  mem : String
  bw : String
  namespace_ : String
  pod : String
  container : String

/-- The function `init`, `getenv` being `os.Getenv`: an empty namespace becomes
`default`. -/
def init (getenv : String → String) : Flags :=
  let ns := getenv "KUBECTL_PLUGINS_LOCAL_FLAG_NAMESPACE"
  { cpu := getenv "KUBECTL_PLUGINS_LOCAL_FLAG_SET_CPU"
    mem := getenv "KUBECTL_PLUGINS_LOCAL_FLAG_SET_MEMORY"
    bw := getenv "KUBECTL_PLUGINS_LOCAL_FLAG_SET_BANDWIDTH"
    namespace_ := if ns = "" then "default" else ns
    pod := getenv "KUBECTL_PLUGINS_LOCAL_FLAG_POD"
    container := getenv "KUBECTL_PLUGINS_LOCAL_FLAG_CONTAINER" }

/-- Go `url.Values.Set`: the key gets the single value, in place of what it had. -/
def Values.Set (v : agent.Values) (key value : String) : agent.Values :=
  if v.any (fun kv => kv.1 = key) then
    v.map fun kv => if kv.1 = key then (key, [value]) else kv
  else v ++ [(key, [value])]

/-- The function `buildQuery`. -/
def buildQuery (containerID : String) (res : Resource) (value : String) : agent.Values :=
  let v : agent.Values := []
  let v := Values.Set v "resource" res
  let v := Values.Set v "value" value
  Values.Set v "container" containerID

/-- The argument vector that `getPodConfig` hands to `exec.Command("kubectl", ...)`. -/
def getPodConfigArgs (pod _ns : String) : List String := ["get", "pod", pod, "-o=json"]

/-- The function `getPodConfig`. The cluster-state CLI (`kubectl` with `cmd.Output()`)
is the parameter `kubectl`, from the argument vector to the output or the error;
`json.Unmarshal` into a `PodConfiguration` is the parameter `unmarshal`. -/
def getPodConfig (kubectl : List String → Except GoError String)
    (unmarshal : String → Except GoError PodConfiguration) (pod ns : String) :
    Option PodConfiguration × Option GoError :=
  match kubectl (getPodConfigArgs pod ns) with
  | .error err => (none, some err)
  | .ok out =>
    match unmarshal out with
    | .error err => (none, some err)
    | .ok pc => (some pc, none)

/-- A resize request as the resolver sends it: the host and the query. -/
abbrev SentRequest := String × agent.Values

/-- One of the three blocks `if value != "" { if err = post(...); err != nil { ... } }`
of `main`: the requests sent so far with this one added when the value is not
empty, and whether the send failed (the process then exits). The function `post`
of the resolver, an HTTP exchange, is the parameter `send`. -/
def sendBlock (send : String → agent.Values → Option GoError) (sent : List SentRequest)
    (value : String) (req : SentRequest) : List SentRequest × Bool :=
  if value ≠ "" then (sent ++ [req], (send req.1 req.2).isSome) else (sent, false)

/-- The function `main` of the resolver on the variables set by `init`: the requests
sent, in order, and the exit status of the process. Printing is left out. A `nil`
result without an error, which neither `getPodConfig` nor `GetContainerID`
returns, is given the exit status 1. -/
def main (orbit : Char → Char → Bool) (kubectl : List String → Except GoError String)
    (unmarshal : String → Except GoError PodConfiguration)
    (send : String → agent.Values → Option GoError) (fl : Flags) :
    List SentRequest × Nat :=
  if fl.pod = "" then ([], 1)
  else if fl.container = "" then ([], 1)
  else
    match getPodConfig kubectl unmarshal fl.pod fl.namespace_ with
    | (_, some _) => ([], 1)
    | (none, none) => ([], 1)
    | (some pc, none) =>
      match GetContainerID orbit pc fl.container with
      | (_, some _) => ([], 1)
      | (none, none) => ([], 1)
      | (some containerID, none) =>
        let r1 := sendBlock send [] fl.cpu (GetHost pc, buildQuery containerID CPU fl.cpu)
        if r1.2 then (r1.1, 1)
        else
          let r2 := sendBlock send r1.1 fl.mem (GetHost pc, buildQuery containerID Memory fl.mem)
          if r2.2 then (r2.1, 1)
          else
            let r3 := sendBlock send r2.1 fl.bw
              (GetHost pc, buildQuery containerID Bandwidth fl.bw)
            if r3.2 then (r3.1, 1) else (r3.1, 0)

end plugin

/-! ## The words of the specification -/

/-- The digit run of an input: its ASCII digits, in order. -/
def digitRun (s : String) : String :=
  String.mk (s.data.filter fun c => decide ('0' ≤ c ∧ c ≤ '9'))

/-- The letter run of an input: its ASCII letters, in order. -/
def letterRun (s : String) : String :=
  String.mk (s.data.filter fun c => decide (('A' ≤ c ∧ c ≤ 'Z') ∨ ('a' ≤ c ∧ c ≤ 'z')))

/-- A sequence cut off immediately after its first element that fails. -/
def cutAfterFirstFailure {α : Type} (fails : α → Bool) : List α → List α
  | [] => []
  | x :: xs => if fails x then [x] else x :: cutAfterFirstFailure fails xs

/-- The requests of the resolver in the words of the specification: of cpu, memory,
bandwidth, in that order, those whose input is not empty, each carrying the kind,
the raw value and the container id, addressed to the host. -/
def requestsInOrder (host containerID : String) (fl : plugin.Flags) : List plugin.SentRequest :=
  ([(plugin.CPU, fl.cpu), (plugin.Memory, fl.mem), (plugin.Bandwidth, fl.bw)].filter
      fun kv => kv.2 ≠ "").map
    fun kv => (host, plugin.buildQuery containerID kv.1 kv.2)

open agent
open plugin (GetContainerID GetHost PodConfiguration ContainerStatus)

/-! ## Auxiliary facts: the scanning loop -/

theorem char_le_iff (a b : Char) : a ≤ b ↔ a.toNat ≤ b.toNat := by
  rw [Char.le_def]
  exact Iff.rfl

theorem foldl_scanStep (l : List Char) (acc : List Char × List Char) :
    l.foldl scanStep acc =
      (acc.1 ++ l.filter (fun c => decide ('0' ≤ c ∧ c ≤ '9')),
       acc.2 ++ l.filter (fun c => decide (('A' ≤ c ∧ c ≤ 'Z') ∨ ('a' ≤ c ∧ c ≤ 'z')))) := by
  induction l generalizing acc with
  | nil => simp
  | cons r l ih =>
    rw [List.foldl_cons, ih]
    have hA : ('A' : Char).toNat = 65 := rfl
    have hZ : ('Z' : Char).toNat = 90 := rfl
    have ha : ('a' : Char).toNat = 97 := rfl
    have hz : ('z' : Char).toNat = 122 := rfl
    have h0 : ('0' : Char).toNat = 48 := rfl
    have h9 : ('9' : Char).toNat = 57 := rfl
    by_cases hU : 'A' ≤ r ∧ r ≤ 'Z'
    · have hd : ¬ ('0' ≤ r ∧ r ≤ '9') := by
        simp only [char_le_iff, hA, hZ, h0, h9] at hU ⊢
        omega
      simp [scanStep, hU, hd]
    · by_cases hL : 'a' ≤ r ∧ r ≤ 'z'
      · have hd : ¬ ('0' ≤ r ∧ r ≤ '9') := by
          simp only [char_le_iff, ha, hz, h0, h9] at hL ⊢
          omega
        simp [scanStep, hU, hL, hd]
      · by_cases hD : '0' ≤ r ∧ r ≤ '9'
        · simp [scanStep, hU, hL, hD]
        · simp [scanStep, hU, hL, hD]

theorem scan_eq (s : String) : scan s = ((digitRun s).data, (letterRun s).data) := by
  simp [scan, foldl_scanStep, digitRun, letterRun]

/-! ## Auxiliary facts: decimal texts and `strconv` -/

theorem digitChar_isDec (m : Nat) (hm : m < 10) :
    ('0' ≤ Nat.digitChar m ∧ Nat.digitChar m ≤ '9') ∧
      (Nat.digitChar m).toNat - ('0' : Char).toNat = m := by
  interval_cases m <;> decide

theorem parseUintLoop_append (xs ys : List Char) (k : Nat) :
    strconv.parseUintLoop (xs ++ ys) k =
      if (strconv.parseUintLoop xs k).2 = none then
        strconv.parseUintLoop ys (strconv.parseUintLoop xs k).1
      else strconv.parseUintLoop xs k := by
  induction xs generalizing k with
  | nil => simp [strconv.parseUintLoop]
  | cons c cs ih =>
    simp only [List.cons_append, strconv.parseUintLoop]
    split_ifs <;> simp_all

theorem parseUintLoop_digit (m k : Nat) (hm : m < 10) (hk : k * 10 + m ≤ maxUint64) :
    strconv.parseUintLoop [Nat.digitChar m] k = (k * 10 + m, none) := by
  obtain ⟨hd, hv⟩ := digitChar_isDec m hm
  have h64 : maxUint64 = 18446744073709551615 := by decide
  rw [h64] at hk
  simp only [strconv.parseUintLoop, hd, hv, h64]
  have e : (k * 10 + m) % 2 ^ 64 = k * 10 + m := Nat.mod_eq_of_lt (by omega)
  rw [e]
  have h1 : ¬ (k ≥ 18446744073709551615 / 10 + 1) := by omega
  have h2 : ¬ (k * 10 + m < k * 10 ∨ k * 10 + m > 18446744073709551615) := by omega
  simp [h1, h2]
  exact hk

/-- What `Nat.toDigitsCore` writes is put in front of the accumulator, unchanged by it. -/
theorem toDigitsCore_acc (fuel : Nat) (n : Nat) (acc : List Char) :
    Nat.toDigitsCore 10 fuel n acc = Nat.toDigitsCore 10 fuel n [] ++ acc := by
  induction fuel generalizing n acc with
  | zero => simp [Nat.toDigitsCore]
  | succ k hk =>
    simp only [Nat.toDigitsCore]
    rcases Nat.eq_zero_or_pos (n / 10) with hq | hq
    · simp [hq]
    · have hq0 : n / 10 ≠ 0 := Nat.pos_iff_ne_zero.mp hq
      rw [if_neg hq0, if_neg hq0, hk (n / 10) (Nat.digitChar (n % 10) :: acc),
        hk (n / 10) [Nat.digitChar (n % 10)]]
      simp

theorem toDigitsCore_unfold (k n : Nat) :
    Nat.toDigitsCore 10 (k + 1) n [] =
      if n / 10 = 0 then [Nat.digitChar (n % 10)]
      else Nat.toDigitsCore 10 k (n / 10) [] ++ [Nat.digitChar (n % 10)] := by
  simp only [Nat.toDigitsCore]
  split_ifs
  · rfl
  · exact toDigitsCore_acc k (n / 10) _

theorem toDigitsCore_read (fuel : Nat) (n : Nat) (hf : n < fuel) (hn : n ≤ maxUint64) :
    strconv.parseUintLoop (Nat.toDigitsCore 10 fuel n []) 0 = (n, none) := by
  induction fuel generalizing n with
  | zero => exact absurd hf (Nat.not_lt_zero n)
  | succ k hk =>
    have hr : n % 10 < 10 := Nat.mod_lt n (by decide)
    have hsum : n / 10 * 10 + n % 10 = n := by omega
    rw [toDigitsCore_unfold]
    split_ifs with hq
    · rw [parseUintLoop_digit _ 0 hr (by omega)]
      congr 1
      omega
    · rw [parseUintLoop_append, hk (n / 10) (by omega) (by omega), if_pos rfl,
        parseUintLoop_digit _ _ hr (by omega), hsum]

theorem toDigitsCore_dec (fuel : Nat) (n : Nat) (c : Char)
    (hc : c ∈ Nat.toDigitsCore 10 fuel n []) : '0' ≤ c ∧ c ≤ '9' := by
  induction fuel generalizing n with
  | zero => simp [Nat.toDigitsCore] at hc
  | succ k hk =>
    have hr : n % 10 < 10 := Nat.mod_lt n (by decide)
    rw [toDigitsCore_unfold] at hc
    split_ifs at hc with hq
    · rw [List.mem_singleton.mp hc]
      exact (digitChar_isDec _ hr).1
    · rcases List.mem_append.mp hc with h | h
      · exact hk _ h
      · rw [List.mem_singleton.mp h]
        exact (digitChar_isDec _ hr).1

theorem toDigitsCore_ne_nil (k n : Nat) : Nat.toDigitsCore 10 (k + 1) n [] ≠ [] := by
  rw [toDigitsCore_unfold]
  split_ifs <;> simp

theorem repr_parse (n : Nat) :
    ∃ c cs, (Nat.repr n).data = c :: cs ∧ (∀ x ∈ c :: cs, '0' ≤ x ∧ x ≤ '9') ∧
      (n ≤ maxUint64 → strconv.parseUintLoop (c :: cs) 0 = (n, none)) := by
  have hd : (Nat.repr n).data = Nat.toDigitsCore 10 (n + 1) n [] := by
    simp [Nat.repr, Nat.toDigits, List.asString]
  rcases hl : Nat.toDigitsCore 10 (n + 1) n [] with _ | ⟨c, cs⟩
  · exact absurd hl (toDigitsCore_ne_nil n n)
  · refine ⟨c, cs, by rw [hd, hl], ?_, ?_⟩
    · intro x hx
      exact toDigitsCore_dec (n + 1) n x (by rw [hl]; exact hx)
    · intro hn
      rw [← hl]
      exact toDigitsCore_read (n + 1) n (Nat.lt_succ_self n) hn

theorem isDec_ne_sign (c : Char) (h : '0' ≤ c ∧ c ≤ '9') : c ≠ '+' ∧ c ≠ '-' ∧ c ≠ 'm' := by
  have h0 : ('0' : Char).toNat = 48 := rfl
  have h9 : ('9' : Char).toNat = 57 := rfl
  simp only [char_le_iff, h0, h9] at h
  refine ⟨?_, ?_, ?_⟩ <;> intro e <;> rw [e] at h <;> revert h <;> decide

theorem wrapInt64_of_range (x : Int) (h1 : -(2 ^ 63) ≤ x) (h2 : x < 2 ^ 63) : wrapInt64 x = x := by
  unfold wrapInt64
  omega

theorem ParseInt_formatInt (n : Int) (h1 : -(2 ^ 63) ≤ n) (h2 : n < 2 ^ 63) :
    strconv.ParseInt (formatInt n) = (n, none) := by
  cases n with
  | ofNat m =>
    obtain ⟨c, cs, hdata, hdig, hval⟩ := repr_parse m
    obtain ⟨hp, hm, -⟩ := isDec_ne_sign c (hdig c (List.mem_cons_self _ _))
    have hm63 : m < 2 ^ 63 := by
      have : (m : Int) < 2 ^ 63 := h2
      exact_mod_cast this
    have hle : m ≤ maxUint64 := by
      have : maxUint64 = 18446744073709551615 := by decide
      omega
    have hw : wrapInt64 (m : Int) = m := wrapInt64_of_range _ (by omega) (by exact_mod_cast hm63)
    simp only [formatInt, strconv.ParseInt, hdata, hp, hm, strconv.ParseUint]
    have hv := hval hle
    simp only [or_self, if_false] at hv ⊢
    rw [hv]
    simp [hw]
    omega
  | negSucc m =>
    obtain ⟨c, cs, hdata, hdig, hval⟩ := repr_parse (m + 1)
    have hm63 : m + 1 ≤ 2 ^ 63 := by
      have : -(2 ^ 63 : Int) ≤ Int.negSucc m := h1
      rw [Int.negSucc_eq] at this
      have : ((m + 1 : Nat) : Int) ≤ 2 ^ 63 := by push_cast; omega
      exact_mod_cast this
    have hle : m + 1 ≤ maxUint64 := by
      have : maxUint64 = 18446744073709551615 := by decide
      omega
    have hw : wrapInt64 (-wrapInt64 ((m + 1 : Nat) : Int)) = Int.negSucc m := by
      rw [Int.negSucc_eq]
      unfold wrapInt64
      push_cast
      omega
    have hd : (formatInt (Int.negSucc m)).data = '-' :: c :: cs := by
      simp [formatInt, hdata]
    simp only [strconv.ParseInt, hd, strconv.ParseUint]
    have hv := hval hle
    simp only [or_true, if_true] at hv ⊢
    rw [hv]
    have hw2 : wrapInt64 (-wrapInt64 ((m : Int) + 1)) = Int.negSucc m := by
      rw [← hw]; push_cast; rfl
    have hn : ¬ (9223372036854775808 < m + 1) := by omega
    simp [hw2, hn]

/-! ## Auxiliary facts: the parsers -/

theorem splitChars_first (sep : Char) (ds rest : List Char) (h : sep ∉ ds) :
    strings.splitChars sep (ds ++ sep :: rest) = ds :: strings.splitChars sep rest := by
  induction ds with
  | nil => simp [strings.splitChars]
  | cons c cs ih =>
    have hc : c ≠ sep := fun e => h (by simp [e])
    have hcs : sep ∉ cs := fun e => h (List.mem_cons_of_mem _ e)
    simp [strings.splitChars, hc, ih hcs]

theorem parseUintLoop_dec (l : List Char) (k v : Nat)
    (h : strconv.parseUintLoop l k = (v, none)) : ∀ c ∈ l, '0' ≤ c ∧ c ≤ '9' := by
  induction l generalizing k with
  | nil => simp
  | cons a as ih =>
    intro c hc
    simp only [strconv.parseUintLoop] at h
    split_ifs at h with hd hcut hov
    · simp at h
    · simp at h
    · rcases List.mem_cons.mp hc with e | e
      · rw [e]; exact hd
      · exact ih _ h c e
    · simp at h

theorem parseUintLoop_range (l : List Char) (k v : Nat)
    (h : strconv.parseUintLoop l k = (v, some .ErrRange)) : v = maxUint64 := by
  induction l generalizing k with
  | nil => simp [strconv.parseUintLoop] at h
  | cons a as ih =>
    simp only [strconv.parseUintLoop] at h
    split_ifs at h with hd hcut hov
    · simp at h; exact h.symm
    · simp at h; exact h.symm
    · exact ih _ h
    · simp at h

theorem ParseInt_no_m (t : String) (n : Int) (h : strconv.ParseInt t = (n, none)) :
    'm' ∉ t.data := by
  unfold strconv.ParseInt at h
  rcases hd : t.data with _ | ⟨c, rest⟩
  · simp
  · rw [hd] at h
    simp only at h
    rcases hu : strconv.ParseUint (if c = '+' ∨ c = '-' then rest else c :: rest)
      with ⟨un, _ | ek⟩
    · have hall : ∀ x ∈ (if c = '+' ∨ c = '-' then rest else c :: rest),
          '0' ≤ x ∧ x ≤ '9' := by
        unfold strconv.ParseUint at hu
        split at hu
        · simp at hu
        · exact parseUintLoop_dec _ 0 un hu
      intro hm
      by_cases hs : c = '+' ∨ c = '-'
      · rw [if_pos hs] at hall
        rcases List.mem_cons.mp hm with e | e
        · rcases hs with hs | hs <;> rw [← e] at hs <;> revert hs <;> decide
        · exact (isDec_ne_sign _ (hall _ e)).2.2 rfl
      · rw [if_neg hs] at hall
        exact (isDec_ne_sign _ (hall _ hm)).2.2 rfl
    · rw [hu] at h
      cases ek
      · simp at h
      · have hmax : un = maxUint64 := by
          unfold strconv.ParseUint at hu
          split at hu
          · simp at hu
          · exact parseUintLoop_range _ 0 un hu
        have h64 : maxUint64 = 18446744073709551615 := by decide
        rw [h64] at hmax
        simp only at h
        split_ifs at h with ha hb hneg
        · simp at h
        · simp at h
        · exact absurd ⟨hneg, by omega⟩ hb
        · exact absurd ⟨by simpa using hneg, by omega⟩ ha

theorem ParseCPU_of_ParseInt (cmd : ResourceCommand) (t : String) (n : Int)
    (h : strconv.ParseInt t = (n, none)) :
    ParseCPU cmd (t ++ "m") = ({ cmd with Value := cpuForDocker n }, none) := by
  have hc : strings.Contains (t ++ "m") 'm' = true := by
    simp [strings.Contains]
  have hs : strings.Split (t ++ "m") 'm' = [t, ""] := by
    have : (t ++ "m").data = t.data ++ 'm' :: [] := by simp
    simp only [strings.Split, this, splitChars_first 'm' _ [] (ParseInt_no_m t n h)]
    rfl
  simp only [ParseCPU, hc, hs, h]
  rfl

theorem ParseCPU_formatInt (cmd : ResourceCommand) (n : Int)
    (h1 : -(2 ^ 63) ≤ n) (h2 : n < 2 ^ 63) :
    ParseCPU cmd (formatInt n ++ "m") = ({ cmd with Value := cpuForDocker n }, none) :=
  ParseCPU_of_ParseInt cmd (formatInt n) n (ParseInt_formatInt n h1 h2)

theorem ParseMemory_eq (cmd : ResourceCommand) (mem : String) :
    ParseMemory cmd mem =
      match (strconv.ParseInt (digitRun mem)).2 with
      | some e => ({ cmd with Value := (strconv.ParseInt (digitRun mem)).1 }, some e)
      | none =>
        if len (strings.ToUpper (strings.ReplaceFirst (letterRun mem) 'i')) > 1 then
          ({ cmd with Value := (strconv.ParseInt (digitRun mem)).1 },
            some (.errorf "invalid memory format"))
        else
          ({ cmd with Value := (strconv.ParseInt (digitRun mem)).1,
                      Units := strings.ToUpper (strings.ReplaceFirst (letterRun mem) 'i') }, none) := by
  simp only [ParseMemory, scan_eq]

theorem ParseBandwidth_eq (cmd : ResourceCommand) (bw : String) :
    ParseBandwidth cmd bw =
      match (strconv.ParseInt (digitRun bw)).2 with
      | some e => ({ cmd with Value := (strconv.ParseInt (digitRun bw)).1 }, some e)
      | none =>
        if strings.ToLower (letterRun bw) ≠ "kbps" ∧ strings.ToLower (letterRun bw) ≠ "mbps"
            ∧ strings.ToLower (letterRun bw) ≠ "gbps" then
          ({ cmd with Value := (strconv.ParseInt (digitRun bw)).1 },
            some (.errorf "invalid bandwidth units"))
        else
          ({ cmd with Value := (strconv.ParseInt (digitRun bw)).1,
                      Units := strings.ToLower (letterRun bw) }, none) := by
  simp only [ParseBandwidth, scan_eq]

theorem parse_cpu (u : URL) (hres : Values.Get u.Query "resource" = "cpu") :
    parse u =
      if Values.Get u.Query "value" = "" then (none, some (.errorf "no set value specified"))
      else if Values.Get u.Query "container" = "" then
        (none, some (.errorf "no container specified"))
      else
        match ParseCPU ⟨"cpu", 0, "", Values.Get u.Query "container"⟩
            (Values.Get u.Query "value") with
        | (_, some e) => (none, some e)
        | (cmd, none) => (some cmd, none) := by
  simp only [parse, hres]
  have e1 : ¬ ("cpu" : String) = "" := by decide
  have e2 : ("cpu" : String) = CPU := rfl
  rw [if_neg e1, if_pos e2]
  by_cases hv : Values.Get u.Query "value" = ""
  · simp only [hv, if_true]
  · by_cases hc : Values.Get u.Query "container" = ""
    · simp only [hv, hc, if_true, if_false]
    · simp only [hv, hc, if_false]
      rcases ParseCPU ⟨"cpu", 0, "", Values.Get u.Query "container"⟩
          (Values.Get u.Query "value") with ⟨c, _ | e⟩ <;> rfl

/-! ## The resolver: the runtime container id -/

/-- C1: on the pod descriptor whose container `web` has the id `docker://deadbeef`,
`GetContainerID` returns `adbeef`: the call of `strings.TrimLeft` with the cutset
`docker://` removes every leading character among `d o c k e r : /`, here also the
first two characters of the runtime id. The id `abc123` of the example, which
starts with none of them, is returned whole. -/
theorem GetContainerID_trims_into_id (orbit : Char → Char → Bool) (host : String) :
    GetContainerID orbit ⟨[⟨"docker://deadbeef", "web"⟩], host⟩ "web" = (some "adbeef", none) ∧
    GetContainerID orbit ⟨[⟨"docker://abc123", "web"⟩], host⟩ "web" = (some "abc123", none) := by
  constructor <;> rfl

/-! ## The agent: CPU shares -/

/-- C2, as stated, fails: at `m = 2^53` the product `m * 1024` wraps around to
`-2^63` and `cpuForDocker` returns 2, not `max(2, floor(m*1024/1000))`. -/
theorem cpuForDocker_wraps_counterexample :
    ¬ (∀ m : Int, 0 ≤ m → m < 2 ^ 63 → cpuForDocker m = max 2 (m * 1024 / 1000)) := by
  intro h
  have := h 9007199254740992 (by decide) (by decide)
  revert this
  decide

/-- C2, amended: for every millicore input `m` with `0 ≤ m ≤ floor((2^63-1)/1024)`,
where the multiplication stays within `int64`, `cpuForDocker m` is
`max(2, floor(m*1024/1000))`; and `cpuForDocker 0 = 2`. -/
theorem cpuForDocker_eq_max (m : Int) (h0 : 0 ≤ m) (h1 : m ≤ 9007199254740991) :
    cpuForDocker m = max 2 (m * 1024 / 1000) ∧ cpuForDocker 0 = 2 := by
  refine ⟨?_, by decide⟩
  have hw : wrapInt64 (m * 1024) = m * 1024 := wrapInt64_of_range _ (by omega) (by omega)
  have hd : Int.tdiv (m * 1024) 1000 = m * 1024 / 1000 :=
    Int.tdiv_eq_ediv (by omega) (by decide)
  unfold cpuForDocker
  simp only [minShares, sharesPerCPU, milliCPUToCPU, hw, hd]
  split_ifs with hz hlt
  · subst hz; decide
  · omega
  · omega

/-- The amended C2 at 500 millicores: 512 shares. -/
theorem cpuForDocker_eq_max_witness :
    (0 : Int) ≤ 500 ∧ (500 : Int) ≤ 9007199254740991 ∧
      (cpuForDocker 500 = max 2 (500 * 1024 / 1000) ∧ cpuForDocker 0 = 2) :=
  ⟨by decide, by decide, cpuForDocker_eq_max 500 (by decide) (by decide)⟩

/-! ## The agent: parsing -/

/-- C3: for every integer `n` in the `int64` range, `ParseCPU` on the decimal text of
`n` followed by the letter `m` returns no error, sets `Value` to `cpuForDocker n`,
changes no other field and so leaves an empty `Units` empty; the same holds for
every other spelling `t` that `strconv.ParseInt` reads as `n` (a leading `+`,
leading zeros); on `500m` the value is 512. -/
theorem ParseCPU_millicores (cmd : ResourceCommand) (n : Int)
    (h1 : -(2 ^ 63) ≤ n) (h2 : n < 2 ^ 63) (hU : cmd.Units = "") :
    ParseCPU cmd (formatInt n ++ "m") = ({ cmd with Value := cpuForDocker n }, none) ∧
      (ParseCPU cmd (formatInt n ++ "m")).1.Units = "" ∧
      (∀ t, strconv.ParseInt t = (n, none) →
        ParseCPU cmd (t ++ "m") = ({ cmd with Value := cpuForDocker n }, none)) ∧
      (ParseCPU cmd "500m").1.Value = 512 := by
  have h500 := ParseCPU_formatInt cmd 500 (by decide) (by decide)
  have e500 : formatInt 500 ++ "m" = "500m" := by decide
  have c500 : cpuForDocker 500 = 512 := by decide
  rw [e500, c500] at h500
  rw [ParseCPU_formatInt cmd n h1 h2, h500]
  exact ⟨rfl, hU, fun t ht => ParseCPU_of_ParseInt cmd t n ht, rfl⟩

/-- C3 at the fresh command of `parse` and `n = 500`, spelled `500` and `+0500`. -/
theorem ParseCPU_millicores_witness :
    ParseCPU ⟨CPU, 0, "", "abc123"⟩ "500m" = (⟨CPU, 512, "", "abc123"⟩, none) ∧
      ParseCPU ⟨CPU, 0, "", "abc123"⟩ "+0500m" = (⟨CPU, 512, "", "abc123"⟩, none) :=
  have h := ParseCPU_millicores ⟨CPU, 0, "", "abc123"⟩ 500 (by decide) (by decide) rfl
  ⟨h.1, h.2.2.1 "+0500" (by decide)⟩

/-- C4, as stated, fails: `5m0` does not end in `m`, yet `ParseCPU` accepts it (the
text before the first `m` is parsed, what follows is ignored). -/
theorem ParseCPU_no_suffix_counterexample :
    ¬ (∀ (cmd : ResourceCommand) (cpu : String),
        cpu.data.getLast? ≠ some 'm' → (ParseCPU cmd cpu).2 ≠ none) := by
  intro h
  exact h ⟨CPU, 0, "", "abc123"⟩ "5m0" (by decide) (by decide)

/-- C4, amended: for every cpu input that contains no `m` at all, e.g. `500`,
`ParseCPU` returns the error "cpu must be specified in millicores" and leaves the
command as it was; `parse` of a request for the resource `cpu` with such a value
returns an error and no command. -/
theorem ParseCPU_without_m (cmd : ResourceCommand) (cpu : String) (h : 'm' ∉ cpu.data) :
    ParseCPU cmd cpu = (cmd, some (.errorf "cpu must be specified in millicores")) ∧
      ∀ u : URL, Values.Get u.Query "resource" = "cpu" → Values.Get u.Query "value" = cpu →
        (parse u).1 = none ∧ (parse u).2 ≠ none := by
  have hc : strings.Contains cpu 'm' = false := by
    simpa [strings.Contains] using h
  have hp : ∀ c : ResourceCommand,
      ParseCPU c cpu = (c, some (.errorf "cpu must be specified in millicores")) := by
    intro c
    simp [ParseCPU, hc]
  refine ⟨hp cmd, ?_⟩
  intro u hres hval
  rw [parse_cpu u hres, hval, hp]
  split_ifs <;> simp

/-- The amended C4 at the input `500`. -/
theorem ParseCPU_without_m_witness :
    'm' ∉ "500".data ∧
      ParseCPU ⟨CPU, 0, "", "abc123"⟩ "500"
        = (⟨CPU, 0, "", "abc123"⟩, some (.errorf "cpu must be specified in millicores")) :=
  ⟨by decide, (ParseCPU_without_m ⟨CPU, 0, "", "abc123"⟩ "500" (by decide)).1⟩

/-- C5, as stated, fails: in `256Mii` the letters left once every `i` is removed are
the single letter `M`, yet `ParseMemory` fails with "invalid memory format": only
the first `i` is removed, the letters kept are `MI`. -/
theorem ParseMemory_every_i_counterexample :
    ¬ (∀ (cmd : ResourceCommand) (mem : String) (n : Int),
        strconv.ParseInt (digitRun mem) = (n, none) →
        ((ParseMemory cmd mem).2 = some (.errorf "invalid memory format") ↔
          1 < len (strings.ToUpper (String.mk ((letterRun mem).data.filter fun c => c ≠ 'i')))) ∧
        (¬ 1 < len (strings.ToUpper (String.mk ((letterRun mem).data.filter fun c => c ≠ 'i'))) →
          (ParseMemory cmd mem).2 = none ∧ (ParseMemory cmd mem).1.Value = n ∧
          (ParseMemory cmd mem).1.Units
            = strings.ToUpper (String.mk ((letterRun mem).data.filter fun c => c ≠ 'i')))) := by
  intro h
  have h1 := (h ⟨Memory, 0, "", "abc123"⟩ "256Mii" 256 (by decide)).1
  revert h1
  decide

/-- C5, amended: for every memory input whose digit run parses as an `int64` `n`, let
`L` be the letter run with its first lower-case `i` (if any) removed, then
upper-cased. `ParseMemory` fails with "invalid memory format" if and only if `L`
has more than one letter; otherwise it succeeds with `Value = n` and `Units = L`. -/
theorem ParseMemory_first_i (cmd : ResourceCommand) (mem : String) (n : Int)
    (hn : strconv.ParseInt (digitRun mem) = (n, none)) :
    ((ParseMemory cmd mem).2 = some (.errorf "invalid memory format") ↔
        1 < len (strings.ToUpper (String.mk ((letterRun mem).data.erase 'i')))) ∧
      (¬ 1 < len (strings.ToUpper (String.mk ((letterRun mem).data.erase 'i'))) →
        ParseMemory cmd mem =
          ({ cmd with Value := n,
                      Units := strings.ToUpper (String.mk ((letterRun mem).data.erase 'i')) },
            none)) := by
  rw [ParseMemory_eq, hn]
  simp only [strings.ReplaceFirst]
  by_cases hl : 1 < len (strings.ToUpper (String.mk ((letterRun mem).data.erase 'i')))
  · simp [hl]
  · simp [hl]

/-- The amended C5 at the inputs `256Mi`, `256Gi` and `256XYi`. -/
theorem ParseMemory_first_i_witness :
    ParseMemory ⟨Memory, 0, "", "abc123"⟩ "256Mi" = (⟨Memory, 256, "M", "abc123"⟩, none) ∧
      (ParseMemory ⟨Memory, 0, "", "abc123"⟩ "256Gi").1.Units = "G" ∧
      (ParseMemory ⟨Memory, 0, "", "abc123"⟩ "256XYi").2
        = some (.errorf "invalid memory format") :=
  ⟨(ParseMemory_first_i ⟨Memory, 0, "", "abc123"⟩ "256Mi" 256 (by decide)).2 (by decide),
   congrArg (fun r => r.1.Units)
     ((ParseMemory_first_i ⟨Memory, 0, "", "abc123"⟩ "256Gi" 256 (by decide)).2 (by decide)),
   (ParseMemory_first_i ⟨Memory, 0, "", "abc123"⟩ "256XYi" 256 (by decide)).1.2 (by decide)⟩

/-- C6: for every bandwidth input, `ParseBandwidth` succeeds if and only if the digit
run parses as an `int64` and the lower-cased letter run is one of `kbps`, `mbps`,
`gbps`; on success `Value` is the parsed number and `Units` the lower-cased unit;
when the digit run parses and the unit does not match, the error is "invalid
bandwidth units". -/
theorem ParseBandwidth_spec (cmd : ResourceCommand) (bw : String) :
    ((ParseBandwidth cmd bw).2 = none ↔
        (∃ n, strconv.ParseInt (digitRun bw) = (n, none)) ∧
          strings.ToLower (letterRun bw) ∈ ["kbps", "mbps", "gbps"]) ∧
      (∀ n, strconv.ParseInt (digitRun bw) = (n, none) →
        (strings.ToLower (letterRun bw) ∈ ["kbps", "mbps", "gbps"] →
          ParseBandwidth cmd bw =
            ({ cmd with Value := n, Units := strings.ToLower (letterRun bw) }, none)) ∧
        (strings.ToLower (letterRun bw) ∉ ["kbps", "mbps", "gbps"] →
          (ParseBandwidth cmd bw).2 = some (.errorf "invalid bandwidth units"))) := by
  rw [ParseBandwidth_eq]
  rcases hp : strconv.ParseInt (digitRun bw) with ⟨v, _ | e⟩
  · by_cases hu : strings.ToLower (letterRun bw) ∈ ["kbps", "mbps", "gbps"]
    · have hu2 : ¬ (strings.ToLower (letterRun bw) ≠ "kbps" ∧
          strings.ToLower (letterRun bw) ≠ "mbps" ∧ strings.ToLower (letterRun bw) ≠ "gbps") := by
        simp only [List.mem_cons, List.mem_singleton, List.not_mem_nil, or_false] at hu
        tauto
      simp [hu, hu2]
    · have hu2 : strings.ToLower (letterRun bw) ≠ "kbps" ∧
          strings.ToLower (letterRun bw) ≠ "mbps" ∧ strings.ToLower (letterRun bw) ≠ "gbps" := by
        simp only [List.mem_cons, List.mem_singleton, List.not_mem_nil, or_false] at hu
        tauto
      simp [hu, hu2]
  · simp

/-- C6 at the inputs `10Mbps` and `10xyz`. -/
theorem ParseBandwidth_spec_witness :
    ParseBandwidth ⟨Bandwidth, 0, "", "abc123"⟩ "10Mbps"
        = (⟨Bandwidth, 10, "mbps", "abc123"⟩, none) ∧
      (ParseBandwidth ⟨Bandwidth, 0, "", "abc123"⟩ "10xyz").2
        = some (.errorf "invalid bandwidth units") :=
  ⟨((ParseBandwidth_spec ⟨Bandwidth, 0, "", "abc123"⟩ "10Mbps").2 10 (by decide)).1 (by decide),
   ((ParseBandwidth_spec ⟨Bandwidth, 0, "", "abc123"⟩ "10xyz").2 10 (by decide)).2 (by decide)⟩

/-- C7, as stated, fails: the memory input `256` holds no letter, yet `ParseMemory`
succeeds on it, with `Value` 256 and empty `Units`. -/
theorem ParseMemory_absent_unit_counterexample :
    ¬ (∀ (cmd : ResourceCommand) (s : String), letterRun s = "" →
        (ParseMemory cmd s).2 ≠ none ∧ (ParseBandwidth cmd s).2 ≠ none) := by
  intro h
  exact (h ⟨Memory, 0, "", "abc123"⟩ "256" (by decide)).1 (by decide)

/-- C7, amended: for every bandwidth input whose unit is absent (no letters),
`ParseBandwidth` returns an error. `ParseMemory` accepts an absent unit: on an
input without letters it returns an error exactly when the digit run does not
parse as an `int64`, and otherwise succeeds with that number and empty `Units`. -/
theorem absent_unit (cmd : ResourceCommand) (s : String) (h : letterRun s = "") :
    (ParseBandwidth cmd s).2 ≠ none ∧
      ((ParseMemory cmd s).2 ≠ none ↔ (strconv.ParseInt (digitRun s)).2 ≠ none) ∧
      (∀ n, strconv.ParseInt (digitRun s) = (n, none) →
        ParseMemory cmd s = ({ cmd with Value := n, Units := "" }, none)) := by
  rw [ParseBandwidth_eq, ParseMemory_eq, h]
  have hl : strings.ToLower "" = "" := rfl
  have hu : strings.ToUpper (strings.ReplaceFirst "" 'i') = "" := rfl
  have hlen : ¬ len "" > 1 := by decide
  rw [hl, hu]
  rcases hp : strconv.ParseInt (digitRun s) with ⟨v, _ | e⟩
  · simp [hlen]
  · simp

/-- The amended C7 at the input `256`. -/
theorem absent_unit_witness :
    letterRun "256" = "" ∧
      (ParseBandwidth ⟨Bandwidth, 0, "", "abc123"⟩ "256").2 ≠ none ∧
      ParseMemory ⟨Memory, 0, "", "abc123"⟩ "256" = (⟨Memory, 256, "", "abc123"⟩, none) :=
  ⟨by decide, (absent_unit ⟨Bandwidth, 0, "", "abc123"⟩ "256" (by decide)).1,
    (absent_unit ⟨Memory, 0, "", "abc123"⟩ "256" (by decide)).2.2 256 (by decide)⟩

/-! ## The agent: the argument vector -/

/-- C8: for every container `c`, value `N` and units `u` among `kbps`, `mbps`, `gbps`,
with `b` the unit without its trailing `bps` (`k`, `m`, `g`), `Args` of the
bandwidth command is the three-element vector `exec`, `c`, and the `sh -c` text
with rate `N u` and burst `N b`. -/
theorem Args_bandwidth (c : String) (N : Int) (u b : String)
    (h : (u, b) ∈ [("kbps", "k"), ("mbps", "m"), ("gbps", "g")]) :
    Args ⟨Bandwidth, N, u, c⟩ =
      ["exec", c,
        "sh -c \"tc qdisc add dev eth0 root tbf rate " ++ formatInt N ++ u
          ++ " latency 50ms burst " ++ formatInt N ++ b ++ "\""] := by
  have e1 : ¬ (Bandwidth = CPU) := by decide
  have e2 : ¬ (Bandwidth = Memory) := by decide
  have hk : strings.TrimRight "kbps" "bps" = "k" := by decide
  have hm : strings.TrimRight "mbps" "bps" = "m" := by decide
  have hg : strings.TrimRight "gbps" "bps" = "g" := by decide
  simp only [List.mem_cons, List.mem_singleton, Prod.mk.injEq, List.not_mem_nil, or_false] at h
  rcases h with ⟨rfl, rfl⟩ | ⟨rfl, rfl⟩ | ⟨rfl, rfl⟩
  · simp only [Args, if_neg e1, if_neg e2, if_true, hk]
  · simp only [Args, if_neg e1, if_neg e2, if_true, hm]
  · simp only [Args, if_neg e1, if_neg e2, if_true, hg]

/-- C8 at value 10 and units `mbps`: the burst term is `10m`. -/
theorem Args_bandwidth_witness :
    Args ⟨Bandwidth, 10, "mbps", "abc123"⟩ =
      ["exec", "abc123",
        "sh -c \"tc qdisc add dev eth0 root tbf rate 10mbps latency 50ms burst 10m\""] :=
  Args_bandwidth "abc123" 10 "mbps" "m" (by decide)

/-- C9: for every query with resource `cpu`, a non-empty container `c` and the value
the decimal text of an `int64` `n` followed by `m`, `parse` returns a command and
no error, and `Args` of that command is `update`, `c`, `--cpu-shares=` followed by
the decimal text of `cpuForDocker n` and nothing after it. -/
theorem parse_cpu_Args (u : URL) (c : String) (n : Int)
    (hres : Values.Get u.Query "resource" = "cpu")
    (hval : Values.Get u.Query "value" = formatInt n ++ "m")
    (hcon : Values.Get u.Query "container" = c) (hc : c ≠ "")
    (h1 : -(2 ^ 63) ≤ n) (h2 : n < 2 ^ 63) :
    ∃ cmd, parse u = (some cmd, none) ∧
      Args cmd = ["update", c, "--cpu-shares=" ++ formatInt (cpuForDocker n)] := by
  have hv : formatInt n ++ "m" ≠ "" := by
    intro e
    have := congrArg String.data e
    simp at this
  refine ⟨⟨"cpu", cpuForDocker n, "", c⟩, ?_, ?_⟩
  · rw [parse_cpu u hres, hval, hcon, if_neg hv, if_neg hc, ParseCPU_formatInt _ n h1 h2]
  · have e : ("cpu" : String) = CPU := rfl
    simp only [Args, if_pos e, String.append_empty]

/-- C9 at container `abc123` and value `500m`. -/
theorem parse_cpu_Args_witness :
    ∃ cmd, parse ⟨[("resource", ["cpu"]), ("value", ["500m"]), ("container", ["abc123"])]⟩
        = (some cmd, none) ∧
      Args cmd = ["update", "abc123", "--cpu-shares=512"] :=
  parse_cpu_Args ⟨[("resource", ["cpu"]), ("value", ["500m"]), ("container", ["abc123"])]⟩
    "abc123" 500 (by decide) (by decide) (by decide) (by decide) (by decide) (by decide)

/-- C10: for every memory command with container `c`, value `N` and units `u`, `Args`
is `update`, `c`, `--memory=` followed by the decimal text of `N` and then `u`
with no separator; value 256 with units `M` gives `--memory=256M`. -/
theorem Args_memory (c : String) (N : Int) (u : String) :
    Args ⟨Memory, N, u, c⟩ = ["update", c, "--memory=" ++ formatInt N ++ u] ∧
      Args ⟨Memory, 256, "M", c⟩ = ["update", c, "--memory=256M"] := by
  have e1 : ¬ (Memory = CPU) := by decide
  have e256 : "--memory=" ++ formatInt 256 ++ "M" = "--memory=256M" := by decide
  constructor
  · simp only [Args, if_neg e1, if_true]
  · simp only [Args, if_neg e1, if_true, e256]

/-! ## Auxiliary facts: the branches of `parse` -/

theorem parse_memory (u : URL) (hres : Values.Get u.Query "resource" = "memory") :
    parse u =
      if Values.Get u.Query "value" = "" then (none, some (.errorf "no set value specified"))
      else if Values.Get u.Query "container" = "" then
        (none, some (.errorf "no container specified"))
      else
        match ParseMemory ⟨"memory", 0, "", Values.Get u.Query "container"⟩
            (Values.Get u.Query "value") with
        | (_, some e) => (none, some e)
        | (cmd, none) => (some cmd, none) := by
  simp only [parse, hres]
  have e1 : ¬ ("memory" : String) = "" := by decide
  have e2 : ¬ ("memory" : String) = CPU := by decide
  have e3 : ("memory" : String) = Memory := rfl
  rw [if_neg e1, if_neg e2, if_pos e3]
  by_cases hv : Values.Get u.Query "value" = ""
  · simp only [hv, if_true]
  · by_cases hc : Values.Get u.Query "container" = ""
    · simp only [hv, hc, if_true, if_false]
    · simp only [hv, hc, if_false]
      rcases ParseMemory ⟨"memory", 0, "", Values.Get u.Query "container"⟩
          (Values.Get u.Query "value") with ⟨c, _ | e⟩ <;> rfl

theorem parse_bandwidth (u : URL) (hres : Values.Get u.Query "resource" = "bandwidth") :
    parse u =
      if Values.Get u.Query "value" = "" then (none, some (.errorf "no set value specified"))
      else if Values.Get u.Query "container" = "" then
        (none, some (.errorf "no container specified"))
      else
        match ParseBandwidth ⟨"bandwidth", 0, "", Values.Get u.Query "container"⟩
            (Values.Get u.Query "value") with
        | (_, some e) => (none, some e)
        | (cmd, none) => (some cmd, none) := by
  simp only [parse, hres]
  have e1 : ¬ ("bandwidth" : String) = "" := by decide
  have e2 : ¬ ("bandwidth" : String) = CPU := by decide
  have e3 : ¬ ("bandwidth" : String) = Memory := by decide
  have e4 : ("bandwidth" : String) = Bandwidth := rfl
  rw [if_neg e1, if_neg e2, if_neg e3, if_pos e4]
  by_cases hv : Values.Get u.Query "value" = ""
  · simp only [hv, if_true]
  · by_cases hc : Values.Get u.Query "container" = ""
    · simp only [hv, hc, if_true, if_false]
    · simp only [hv, hc, if_false]
      rcases ParseBandwidth ⟨"bandwidth", 0, "", Values.Get u.Query "container"⟩
          (Values.Get u.Query "value") with ⟨c, _ | e⟩ <;> rfl

theorem parse_other (u : URL)
    (h1 : Values.Get u.Query "resource" ≠ "cpu")
    (h2 : Values.Get u.Query "resource" ≠ "memory")
    (h3 : Values.Get u.Query "resource" ≠ "bandwidth") :
    parse u =
      if Values.Get u.Query "resource" = "" then (none, some (.errorf "resource not specified"))
      else if Values.Get u.Query "value" = "" then
        (none, some (.errorf "no set value specified"))
      else if Values.Get u.Query "container" = "" then
        (none, some (.errorf "no container specified"))
      else
        (none, some (.errorf
          ("unsupported resource (" ++ Values.Get u.Query "resource" ++ ")"))) := by
  have e1 : ¬ Values.Get u.Query "resource" = CPU := h1
  have e2 : ¬ Values.Get u.Query "resource" = Memory := h2
  have e3 : ¬ Values.Get u.Query "resource" = Bandwidth := h3
  simp only [parse, if_neg e1, if_neg e2, if_neg e3]

/-- Whatever the resource, a missing or empty parameter makes `parse` return an error
and no command. -/
theorem parse_missing (u : URL)
    (h : Values.Get u.Query "resource" = "" ∨ Values.Get u.Query "value" = "" ∨
      Values.Get u.Query "container" = "") :
    parse u = (none, some (.errorf "resource not specified")) ∨
      parse u = (none, some (.errorf "no set value specified")) ∨
      parse u = (none, some (.errorf "no container specified")) := by
  by_cases hr : Values.Get u.Query "resource" = ""
  · left
    simp only [parse, hr, if_true]
  · have hvc : Values.Get u.Query "value" = "" ∨ Values.Get u.Query "container" = "" := by
      tauto
    right
    by_cases hv : Values.Get u.Query "value" = ""
    · left
      simp only [parse, hr, hv, if_true, if_false]
    · right
      have hc : Values.Get u.Query "container" = "" := by tauto
      simp only [parse, hr, hv, hc, if_true, if_false]

theorem cpuForDocker_of_fit (m : Int) (h0 : 0 ≤ m) (h1 : m ≤ 9007199254740991) :
    cpuForDocker m = max 2 (m * 1024 / 1000) := by
  have hw : wrapInt64 (m * 1024) = m * 1024 := wrapInt64_of_range _ (by omega) (by omega)
  have hd : Int.tdiv (m * 1024) 1000 = m * 1024 / 1000 :=
    Int.tdiv_eq_ediv (by omega) (by decide)
  unfold cpuForDocker
  simp only [minShares, sharesPerCPU, milliCPUToCPU, hw, hd]
  split_ifs with hz hlt
  · subst hz; decide
  · omega
  · omega

/-! ## The agent: the request handler -/

/-- C11: for every request URL in which `resource`, `value` or `container` is missing
or empty, `parse` returns an error and no command; the handler answers a POST
request with status 400 and the text of that error, and whatever the method it
hands nothing to the runtime executor. -/
theorem parse_missing_parameter (u : URL)
    (h : Values.Get u.Query "resource" = "" ∨ Values.Get u.Query "value" = "" ∨
      Values.Get u.Query "container" = "") :
    ∃ err, parse u = (none, some err) ∧
      (∀ docker, post docker ⟨"POST", u⟩ = (some ⟨400, .errorText err⟩, [])) ∧
      (∀ docker method, (post docker ⟨method, u⟩).2 = []) := by
  have key : ∀ err, parse u = (none, some err) →
      (∀ docker, post docker ⟨"POST", u⟩ = (some ⟨400, .errorText err⟩, [])) ∧
      (∀ docker method, (post docker ⟨method, u⟩).2 = []) := by
    intro err he
    refine ⟨fun docker => ?_, fun docker method => ?_⟩
    · simp [post, he]
    · by_cases hm : method = "POST"
      · simp [post, he, hm]
      · simp [post, hm]
  rcases parse_missing u h with he | he | he
  · exact ⟨_, he, key _ he⟩
  · exact ⟨_, he, key _ he⟩
  · exact ⟨_, he, key _ he⟩

/-- C11 at a request without the parameter `container`. -/
theorem parse_missing_parameter_witness :
    ∃ err, parse ⟨[("resource", ["cpu"]), ("value", ["500m"])]⟩ = (none, some err) ∧
      (∀ docker, post docker ⟨"POST", ⟨[("resource", ["cpu"]), ("value", ["500m"])]⟩⟩
        = (some ⟨400, .errorText err⟩, [])) ∧
      (∀ docker method,
        (post docker ⟨method, ⟨[("resource", ["cpu"]), ("value", ["500m"])]⟩⟩).2 = []) :=
  parse_missing_parameter ⟨[("resource", ["cpu"]), ("value", ["500m"])]⟩
    (Or.inr (Or.inr (by decide)))

/-- C12: for every request with non-empty `resource`, `value` and `container` whose
resource is none of `cpu`, `memory`, `bandwidth`, `parse` returns the error
"unsupported resource (<resource>)" and no command, whatever the value is. -/
theorem parse_unsupported_resource (u : URL)
    (hr : Values.Get u.Query "resource" ≠ "") (hv : Values.Get u.Query "value" ≠ "")
    (hc : Values.Get u.Query "container" ≠ "")
    (h1 : Values.Get u.Query "resource" ≠ "cpu")
    (h2 : Values.Get u.Query "resource" ≠ "memory")
    (h3 : Values.Get u.Query "resource" ≠ "bandwidth") :
    parse u = (none, some (.errorf
      ("unsupported resource (" ++ Values.Get u.Query "resource" ++ ")"))) := by
  rw [parse_other u h1 h2 h3, if_neg hr, if_neg hv, if_neg hc]

/-- C12 at the resource `disk`. -/
theorem parse_unsupported_resource_witness :
    parse ⟨[("resource", ["disk"]), ("value", ["500m"]), ("container", ["abc123"])]⟩
      = (none, some (.errorf "unsupported resource (disk)")) :=
  parse_unsupported_resource
    ⟨[("resource", ["disk"]), ("value", ["500m"]), ("container", ["abc123"])]⟩
    (by decide) (by decide) (by decide) (by decide) (by decide) (by decide)

/-- C16: for every request whose method is not POST, the handler answers with status
405 and the text "method not allowed", whatever the URL and its query are, and
hands nothing to the runtime executor. -/
theorem post_method_not_allowed (docker : List String → Except GoError String) (r : Request)
    (h : r.Method ≠ "POST") :
    post docker r = (some ⟨405, .text "method not allowed"⟩, []) := by
  simp [post, h]

/-- C16 at a GET request with a well-formed cpu query. -/
theorem post_method_not_allowed_witness :
    post (fun _ => .ok "")
        ⟨"GET", ⟨[("resource", ["cpu"]), ("value", ["500m"]), ("container", ["abc123"])]⟩⟩
      = (some ⟨405, .text "method not allowed"⟩, []) :=
  post_method_not_allowed _ _ (by decide)

/-! ## The agent: what `parse` returns -/

theorem cpuForDocker_ge_two (m : Int) : 2 ≤ cpuForDocker m := by
  unfold cpuForDocker
  simp only [minShares]
  split_ifs with h1 h2
  · exact le_refl 2
  · exact le_refl 2
  · omega

theorem toUpper_letter (c : Char) (h : ('A' ≤ c ∧ c ≤ 'Z') ∨ ('a' ≤ c ∧ c ≤ 'z')) :
    'A' ≤ c.toUpper ∧ c.toUpper ≤ 'Z' := by
  have hA : ('A' : Char).toNat = 65 := rfl
  have hZ : ('Z' : Char).toNat = 90 := rfl
  have ha : ('a' : Char).toNat = 97 := rfl
  have hz : ('z' : Char).toNat = 122 := rfl
  simp only [char_le_iff, hA, hZ, ha, hz] at h
  have hc : c = Char.ofNat c.toNat := (Char.ofNat_toNat c).symm
  generalize c.toNat = k at h hc
  subst hc
  rcases h with ⟨h1, h2⟩ | ⟨h1, h2⟩ <;> interval_cases k <;> decide

theorem ParseInt_digits_nonneg (s : String) (hs : ∀ c ∈ s.data, '0' ≤ c ∧ c ≤ '9')
    (h : (strconv.ParseInt s).2 = none) : 0 ≤ (strconv.ParseInt s).1 := by
  revert h
  unfold strconv.ParseInt
  rcases hd : s.data with _ | ⟨c, rest⟩
  · simp
  · obtain ⟨hp, hm, -⟩ := isDec_ne_sign c (hs c (by rw [hd]; exact List.mem_cons_self _ _))
    simp only [hp, hm, or_self, if_false, decide_False]
    rcases hu : strconv.ParseUint (c :: rest) with ⟨un, _ | ek⟩
    · by_cases ha : 9223372036854775808 ≤ un
      · simp [ha]
      · have hlt : (un : Int) < 2 ^ 63 := by omega
        have hw : wrapInt64 (un : Int) = un := wrapInt64_of_range _ (by omega) hlt
        simp [ha, hw]
    · cases ek
      · simp
      · have hmax : un = maxUint64 := by
          unfold strconv.ParseUint at hu
          exact parseUintLoop_range _ 0 un hu
        have ha : 9223372036854775808 ≤ un := by
          rw [hmax]
          decide
        simp [ha]

theorem ParseCPU_ok (cmd c : ResourceCommand) (s : String) (h : ParseCPU cmd s = (c, none)) :
    ∃ v, c = { cmd with Value := cpuForDocker v } := by
  unfold ParseCPU at h
  split_ifs at h with hc
  · simp at h
  · rcases hs : strings.Split s 'm' with _ | ⟨p0, ps⟩
    · rw [hs] at h
      simp at h
    · rw [hs] at h
      simp only at h
      rcases hp : strconv.ParseInt p0 with ⟨v, _ | e⟩
      · rw [hp] at h
        simp only [Prod.mk.injEq, and_true] at h
        exact ⟨v, h.symm⟩
      · rw [hp] at h
        simp at h

theorem digitRun_dec (s : String) : ∀ c ∈ (digitRun s).data, '0' ≤ c ∧ c ≤ '9' := by
  intro c hc
  simp only [digitRun, List.mem_filter, decide_eq_true_eq] at hc
  exact hc.2

theorem ParseMemory_ok (cmd c : ResourceCommand) (s : String)
    (h : ParseMemory cmd s = (c, none)) :
    c.Resource = cmd.Resource ∧ c.Container = cmd.Container ∧ 0 ≤ c.Value ∧
      (c.Units = "" ∨ ∃ ch, c.Units = String.mk [ch] ∧ 'A' ≤ ch ∧ ch ≤ 'Z') := by
  rw [ParseMemory_eq] at h
  have hnn := ParseInt_digits_nonneg (digitRun s) (digitRun_dec s)
  rcases hp : strconv.ParseInt (digitRun s) with ⟨v, _ | e⟩
  · rw [hp] at h hnn
    simp only at h
    split_ifs at h with hl
    · simp at h
    · simp only [Prod.mk.injEq, and_true] at h
      subst h
      refine ⟨rfl, rfl, hnn rfl, ?_⟩
      simp only [len, strings.ToUpper, strings.ReplaceFirst] at hl ⊢
      rcases hx : (letterRun s).data.erase 'i' with _ | ⟨x, _ | ⟨y, ys⟩⟩
      · left
        rfl
      · right
        refine ⟨x.toUpper, rfl, ?_⟩
        have hmem : x ∈ (letterRun s).data := List.mem_of_mem_erase (by rw [hx]; simp)
        simp only [letterRun, List.mem_filter, decide_eq_true_eq] at hmem
        exact toUpper_letter x hmem.2
      · rw [hx] at hl
        simp at hl
  · rw [hp] at h
    simp at h

theorem ParseBandwidth_ok (cmd c : ResourceCommand) (s : String)
    (h : ParseBandwidth cmd s = (c, none)) :
    c.Resource = cmd.Resource ∧ c.Container = cmd.Container ∧ 0 ≤ c.Value ∧
      c.Units ∈ ["kbps", "mbps", "gbps"] := by
  rw [ParseBandwidth_eq] at h
  have hnn := ParseInt_digits_nonneg (digitRun s) (digitRun_dec s)
  rcases hp : strconv.ParseInt (digitRun s) with ⟨v, _ | e⟩
  · rw [hp] at h hnn
    simp only at h
    split_ifs at h with hl
    · simp at h
    · simp only [Prod.mk.injEq, and_true] at h
      subst h
      refine ⟨rfl, rfl, hnn rfl, ?_⟩
      simp only [List.mem_cons, List.mem_singleton, List.not_mem_nil, or_false]
      tauto
  · rw [hp] at h
    simp at h

/-- What `parse` returns is an error without a command, or a command without an error
that one of the three parsers made from the fresh command of the request. -/
theorem parse_shape (u : URL) :
    (∃ err, parse u = (none, some err)) ∨
      ∃ cmd, parse u = (some cmd, none) ∧ Values.Get u.Query "container" ≠ "" ∧
        ((Values.Get u.Query "resource" = "cpu" ∧
            ParseCPU ⟨"cpu", 0, "", Values.Get u.Query "container"⟩
              (Values.Get u.Query "value") = (cmd, none)) ∨
          (Values.Get u.Query "resource" = "memory" ∧
            ParseMemory ⟨"memory", 0, "", Values.Get u.Query "container"⟩
              (Values.Get u.Query "value") = (cmd, none)) ∨
          (Values.Get u.Query "resource" = "bandwidth" ∧
            ParseBandwidth ⟨"bandwidth", 0, "", Values.Get u.Query "container"⟩
              (Values.Get u.Query "value") = (cmd, none))) := by
  by_cases h1 : Values.Get u.Query "resource" = "cpu"
  · rw [parse_cpu u h1]
    split_ifs with hv hc
    · exact Or.inl ⟨_, rfl⟩
    · exact Or.inl ⟨_, rfl⟩
    · rcases hp : ParseCPU ⟨"cpu", 0, "", Values.Get u.Query "container"⟩
          (Values.Get u.Query "value") with ⟨c, _ | e⟩
      · exact Or.inr ⟨c, rfl, hc, Or.inl ⟨h1, rfl⟩⟩
      · exact Or.inl ⟨e, rfl⟩
  · by_cases h2 : Values.Get u.Query "resource" = "memory"
    · rw [parse_memory u h2]
      split_ifs with hv hc
      · exact Or.inl ⟨_, rfl⟩
      · exact Or.inl ⟨_, rfl⟩
      · rcases hp : ParseMemory ⟨"memory", 0, "", Values.Get u.Query "container"⟩
            (Values.Get u.Query "value") with ⟨c, _ | e⟩
        · exact Or.inr ⟨c, rfl, hc, Or.inr (Or.inl ⟨h2, rfl⟩)⟩
        · exact Or.inl ⟨e, rfl⟩
    · by_cases h3 : Values.Get u.Query "resource" = "bandwidth"
      · rw [parse_bandwidth u h3]
        split_ifs with hv hc
        · exact Or.inl ⟨_, rfl⟩
        · exact Or.inl ⟨_, rfl⟩
        · rcases hp : ParseBandwidth ⟨"bandwidth", 0, "", Values.Get u.Query "container"⟩
              (Values.Get u.Query "value") with ⟨c, _ | e⟩
          · exact Or.inr ⟨c, rfl, hc, Or.inr (Or.inr ⟨h3, rfl⟩)⟩
          · exact Or.inl ⟨e, rfl⟩
      · rw [parse_other u h1 h2 h3]
        split_ifs
        · exact Or.inl ⟨_, rfl⟩
        · exact Or.inl ⟨_, rfl⟩
        · exact Or.inl ⟨_, rfl⟩
        · exact Or.inl ⟨_, rfl⟩

theorem Args_of_kind (cmd : ResourceCommand)
    (h : cmd.Resource = "cpu" ∨ cmd.Resource = "memory" ∨ cmd.Resource = "bandwidth") :
    (Args cmd).length = 3 ∧ (Args cmd)[1]? = some cmd.Container := by
  have e1 : ¬ (("memory" : String) = CPU) := by decide
  have e2 : ¬ (("bandwidth" : String) = CPU) := by decide
  have e3 : ¬ (("bandwidth" : String) = Memory) := by decide
  have c1 : ("cpu" : String) = CPU := rfl
  have c2 : ("memory" : String) = Memory := rfl
  have c3 : ("bandwidth" : String) = Bandwidth := rfl
  unfold Args
  rcases h with h | h | h <;> rw [h]
  · rw [if_pos c1]
    exact ⟨rfl, rfl⟩
  · rw [if_neg e1, if_pos c2]
    exact ⟨rfl, rfl⟩
  · rw [if_neg e2, if_neg e3, if_pos c3]
    exact ⟨rfl, rfl⟩

theorem parse_kind (u : URL) (cmd : ResourceCommand) (h : parse u = (some cmd, none)) :
    cmd.Resource = "cpu" ∨ cmd.Resource = "memory" ∨ cmd.Resource = "bandwidth" := by
  rcases parse_shape u with ⟨err, he⟩ | ⟨c, hc, -, hk⟩
  · rw [he] at h
    simp at h
  · rw [hc] at h
    simp only [Prod.mk.injEq, Option.some.injEq, and_true] at h
    subst h
    rcases hk with ⟨-, hp⟩ | ⟨-, hp⟩ | ⟨-, hp⟩
    · obtain ⟨v, hv⟩ := ParseCPU_ok _ _ _ hp
      left
      rw [hv]
    · right; left
      exact (ParseMemory_ok _ _ _ hp).1
    · right; right
      exact (ParseBandwidth_ok _ _ _ hp).1

/-- C13: `parse` returns no command exactly when it returns an error, and every command
it returns has a non-empty container and is a cpu command with `Value ≥ 2` and
empty `Units`, or a memory command with `Value ≥ 0` and `Units` empty or a single
upper-case letter, or a bandwidth command with `Value ≥ 0` and `Units` one of
`kbps`, `mbps`, `gbps`. -/
theorem parse_valid_or_error (u : URL) :
    ((parse u).1 = none ↔ (parse u).2 ≠ none) ∧
      ∀ cmd, (parse u).1 = some cmd →
        cmd.Container ≠ "" ∧
        ((cmd.Resource = CPU ∧ 2 ≤ cmd.Value ∧ cmd.Units = "") ∨
          (cmd.Resource = Memory ∧ 0 ≤ cmd.Value ∧
            (cmd.Units = "" ∨ ∃ ch, cmd.Units = String.mk [ch] ∧ 'A' ≤ ch ∧ ch ≤ 'Z')) ∨
          (cmd.Resource = Bandwidth ∧ 0 ≤ cmd.Value ∧
            cmd.Units ∈ ["kbps", "mbps", "gbps"])) := by
  rcases parse_shape u with ⟨err, he⟩ | ⟨c, hc, hne, hk⟩
  · rw [he]
    simp
  · rw [hc]
    refine ⟨by simp, ?_⟩
    intro cmd hcmd
    simp only [Option.some.injEq] at hcmd
    subst hcmd
    rcases hk with ⟨-, hp⟩ | ⟨-, hp⟩ | ⟨-, hp⟩
    · obtain ⟨v, hv⟩ := ParseCPU_ok _ _ _ hp
      rw [hv]
      exact ⟨hne, Or.inl ⟨rfl, cpuForDocker_ge_two v, rfl⟩⟩
    · obtain ⟨h1, h2, h3, h4⟩ := ParseMemory_ok _ _ _ hp
      refine ⟨by rw [h2]; exact hne, Or.inr (Or.inl ⟨h1, h3, h4⟩)⟩
    · obtain ⟨h1, h2, h3, h4⟩ := ParseBandwidth_ok _ _ _ hp
      refine ⟨by rw [h2]; exact hne, Or.inr (Or.inr ⟨h1, h3, h4⟩)⟩

/-- C20: for every command that `parse` returns without error, `Args` has exactly
three elements and the second one is the container of the command; every
argument vector that the handler hands to the runtime executor has three
elements, so the empty vector of an unknown resource is never handed over. -/
theorem parse_Args_three (u : URL) (cmd : ResourceCommand) (h : parse u = (some cmd, none)) :
    ((Args cmd).length = 3 ∧ (Args cmd)[1]? = some cmd.Container) ∧
      ∀ (docker : List String → Except GoError String) (r : Request),
        ∀ args ∈ (post docker r).2, args.length = 3 ∧ args ≠ [] := by
  refine ⟨Args_of_kind cmd (parse_kind u cmd h), ?_⟩
  intro docker r args hargs
  have hcall : ∃ c, parse r.URL = (some c, none) ∧ args = Args c := by
    unfold post at hargs
    split_ifs at hargs with hm
    · simp at hargs
    · rcases parse_shape r.URL with ⟨err, he⟩ | ⟨c, hc, -, -⟩
      · rw [he] at hargs
        simp at hargs
      · rw [hc] at hargs
        refine ⟨c, hc, ?_⟩
        simp only at hargs
        rcases hd : docker (Args c) with e | out
        · rw [hd] at hargs
          simpa using hargs
        · rw [hd] at hargs
          simpa using hargs
  obtain ⟨c, hc, rfl⟩ := hcall
  have h3 := (Args_of_kind c (parse_kind r.URL c hc)).1
  refine ⟨h3, ?_⟩
  intro hnil
  rw [hnil] at h3
  simp at h3

/-- C20 at the cpu request for container `abc123` with value `500m`. -/
theorem parse_Args_three_witness :
    (Args ⟨"cpu", 512, "", "abc123"⟩).length = 3 ∧
      (Args ⟨"cpu", 512, "", "abc123"⟩)[1]? = some "abc123" :=
  (parse_Args_three ⟨[("resource", ["cpu"]), ("value", ["500m"]), ("container", ["abc123"])]⟩
    ⟨"cpu", 512, "", "abc123"⟩ (by decide)).1

theorem getContainerIDLoop_spec (orbit : Char → Char → Bool) (name : String)
    (l : List plugin.ContainerStatus) :
    ((∀ e ∈ l, strings.EqualFold orbit e.Name name = false) ∧
        plugin.getContainerIDLoop orbit name l = (none, some (.errorf "container not found"))) ∨
      ∃ e, l.find? (fun e => strings.EqualFold orbit e.Name name) = some e ∧
        plugin.getContainerIDLoop orbit name l
          = (some (strings.TrimLeft e.ContainerID "docker://"), none) := by
  induction l with
  | nil =>
    left
    exact ⟨by simp, rfl⟩
  | cons a as ih =>
    by_cases ha : strings.EqualFold orbit a.Name name = true
    · right
      refine ⟨a, by simp [List.find?, ha], ?_⟩
      simp [plugin.getContainerIDLoop, ha]
    · have hf : strings.EqualFold orbit a.Name name = false := by simpa using ha
      rcases ih with ⟨hall, hr⟩ | ⟨e, he, hr⟩
      · left
        refine ⟨?_, by simp [plugin.getContainerIDLoop, hf, hr]⟩
        intro e hmem
        rcases List.mem_cons.mp hmem with h | h
        · rw [h]; exact hf
        · exact hall e h
      · right
        exact ⟨e, by simp [List.find?, hf, he], by simp [plugin.getContainerIDLoop, hf, hr]⟩

/-! ## The resolver: lookup and requests -/

/-- Which entry `GetContainerID` answers from: the error "container not found" arises
exactly when no entry has a name equal to the requested one under
`strings.EqualFold`; otherwise the result is, without error, the text that
`strings.TrimLeft` leaves of the `ContainerID` of the first such entry. -/
theorem GetContainerID_selects (orbit : Char → Char → Bool) (pc : PodConfiguration)
    (name : String) :
    ((GetContainerID orbit pc name).2 = some (.errorf "container not found") ↔
        ∀ e ∈ pc.ContainerStatuses, strings.EqualFold orbit e.Name name = false) ∧
      ((∀ e ∈ pc.ContainerStatuses, strings.EqualFold orbit e.Name name = false) →
        GetContainerID orbit pc name = (none, some (.errorf "container not found"))) ∧
      (∀ e, pc.ContainerStatuses.find? (fun e => strings.EqualFold orbit e.Name name) = some e →
        GetContainerID orbit pc name
          = (some (strings.TrimLeft e.ContainerID "docker://"), none)) := by
  unfold GetContainerID
  rcases getContainerIDLoop_spec orbit name pc.ContainerStatuses with ⟨hall, hr⟩ | ⟨e, he, hr⟩
  · refine ⟨?_, fun _ => hr, ?_⟩
    · rw [hr]
      simp only [true_iff]
      exact hall
    · intro e he
      have hmem := List.mem_of_find?_eq_some he
      have htrue := List.find?_some he
      rw [hall e hmem] at htrue
      simp at htrue
  · have hnot : ¬ ∀ x ∈ pc.ContainerStatuses, strings.EqualFold orbit x.Name name = false := by
      intro hall
      have hmem := List.mem_of_find?_eq_some he
      have htrue := List.find?_some he
      rw [hall e hmem] at htrue
      simp at htrue
    refine ⟨?_, fun hall => absurd hall hnot, ?_⟩
    · rw [hr]
      simp only [reduceCtorEq, false_iff]
      exact hnot
    · intro e2 he2
      rw [he] at he2
      simp only [Option.some.injEq] at he2
      rw [← he2]
      exact hr

/-- C14: `GetContainerID` returns the error "container not found" exactly when no
entry matches the requested name under `strings.EqualFold`, and otherwise answers
without error from the first matching entry; but what it returns is not always
the id of that entry. On the statuses `db`, `WEB`, `web` with the container ids
`docker://111`, `docker://c0ffee`, `docker://333` and the requested name `web`,
the first match is `WEB`, whose id is `c0ffee`, and the result is `0ffee`: the
cutset of `strings.TrimLeft` takes the leading `c` of the id with it. -/
theorem GetContainerID_first_match_not_id (orbit : Char → Char → Bool) (host : String) :
    (∀ (pc : PodConfiguration) (name : String),
        (GetContainerID orbit pc name).2 = some (.errorf "container not found") ↔
          ∀ e ∈ pc.ContainerStatuses, strings.EqualFold orbit e.Name name = false) ∧
      (([⟨"docker://111", "db"⟩, ⟨"docker://c0ffee", "WEB"⟩, ⟨"docker://333", "web"⟩] :
          List ContainerStatus).find? (fun e => strings.EqualFold orbit e.Name "web")).map
        (fun e => e.ContainerID) = some ("docker://" ++ "c0ffee") ∧
      GetContainerID orbit
        ⟨[⟨"docker://111", "db"⟩, ⟨"docker://c0ffee", "WEB"⟩, ⟨"docker://333", "web"⟩], host⟩
        "web" = (some "0ffee", none) ∧
      ("0ffee" : String) ≠ "c0ffee" :=
  ⟨fun pc name => (GetContainerID_selects orbit pc name).1, rfl, rfl, by decide⟩

/-- C15: the argument vector that `getPodConfig` hands to the cluster-state CLI is
`get pod <pod> -o=json` whatever the namespace: for the pod `web-1` the
namespaces `default` and `kube-system` give the same query, and the result of
`getPodConfig` never depends on its namespace argument. -/
theorem getPodConfig_ignores_namespace :
    plugin.getPodConfigArgs "web-1" "kube-system" = ["get", "pod", "web-1", "-o=json"] ∧
      plugin.getPodConfigArgs "web-1" "kube-system" = plugin.getPodConfigArgs "web-1" "default" ∧
      ∀ kubectl unmarshal pod ns1 ns2,
        plugin.getPodConfig kubectl unmarshal pod ns1
          = plugin.getPodConfig kubectl unmarshal pod ns2 :=
  ⟨rfl, rfl, fun _ _ _ _ _ => rfl⟩

/-- C17: once the pod and container names are given, the lookup has succeeded and the
container id is resolved, the requests that `main` sends are those of cpu, memory,
bandwidth (in that order) whose input is not empty, cut off immediately after the
first send that fails; each request carries the kind, the raw value and the
resolved container id. -/
theorem main_sends_in_order (orbit : Char → Char → Bool)
    (kubectl : List String → Except GoError String)
    (unmarshal : String → Except GoError PodConfiguration)
    (send : String → Values → Option GoError) (fl : plugin.Flags)
    (pc : PodConfiguration) (containerID : String)
    (hp : fl.pod ≠ "") (hc : fl.container ≠ "")
    (hpc : plugin.getPodConfig kubectl unmarshal fl.pod fl.namespace_ = (some pc, none))
    (hid : GetContainerID orbit pc fl.container = (some containerID, none)) :
    (plugin.main orbit kubectl unmarshal send fl).1 =
        cutAfterFirstFailure (fun r => (send r.1 r.2).isSome)
          (requestsInOrder (GetHost pc) containerID fl) ∧
      ∀ res value,
        Values.Get (plugin.buildQuery containerID res value) "resource" = res ∧
        Values.Get (plugin.buildQuery containerID res value) "value" = value ∧
        Values.Get (plugin.buildQuery containerID res value) "container" = containerID := by
  refine ⟨?_, fun res value => ⟨rfl, rfl, rfl⟩⟩
  simp only [plugin.main, if_neg hp, if_neg hc, hpc, hid]
  by_cases h1 : fl.cpu = "" <;> by_cases h2 : fl.mem = "" <;> by_cases h3 : fl.bw = "" <;>
    cases hs1 : send (GetHost pc) (plugin.buildQuery containerID plugin.CPU fl.cpu) <;>
    cases hs2 : send (GetHost pc) (plugin.buildQuery containerID plugin.Memory fl.mem) <;>
    cases hs3 : send (GetHost pc) (plugin.buildQuery containerID plugin.Bandwidth fl.bw) <;>
    simp [plugin.sendBlock, requestsInOrder, cutAfterFirstFailure, h1, h2, h3, hs1, hs2, hs3]

/-- C17 with all three inputs given and the memory request failing: the cpu and the
memory request are sent, the bandwidth request is not. -/
theorem main_sends_in_order_witness :
    (plugin.main (fun _ _ => false) (fun _ => .ok "")
        (fun _ => .ok ⟨[⟨"docker://abc123", "web"⟩], "10.0.0.1"⟩)
        (fun _ q => if Values.Get q "resource" = "memory" then some (.errorf "refused") else none)
        ⟨"500m", "256Mi", "10Mbps", "default", "web-1", "web"⟩).1
      = [("10.0.0.1", [("resource", ["cpu"]), ("value", ["500m"]), ("container", ["abc123"])]),
         ("10.0.0.1", [("resource", ["memory"]), ("value", ["256Mi"]), ("container", ["abc123"])])] :=
  (main_sends_in_order (fun _ _ => false) (fun _ => .ok "")
    (fun _ => .ok ⟨[⟨"docker://abc123", "web"⟩], "10.0.0.1"⟩)
    (fun _ q => if Values.Get q "resource" = "memory" then some (.errorf "refused") else none)
    ⟨"500m", "256Mi", "10Mbps", "default", "web-1", "web"⟩
    ⟨[⟨"docker://abc123", "web"⟩], "10.0.0.1"⟩ "abc123"
    (by decide) (by decide) rfl rfl).1.trans (by decide)

/-! ## The agent: bounds on the CPU shares -/

/-- C18: for every input `m`, also a negative one and one for which `m * 1024` wraps
around in 64 bits, `cpuForDocker m` is at least 2. -/
theorem cpuForDocker_at_least_min (m : Int) :
    2 ≤ cpuForDocker m ∧ cpuForDocker (-5) = 2 ∧ cpuForDocker 9007199254740992 = 2 :=
  ⟨cpuForDocker_ge_two m, by decide, by decide⟩

/-- C19: on the range where the multiplication does not overflow, `cpuForDocker` is
monotone: for `0 ≤ m1 ≤ m2 ≤ floor((2^63 - 1) / 1024)`,
`cpuForDocker m1 ≤ cpuForDocker m2`. -/
theorem cpuForDocker_monotone (m1 m2 : Int) (h0 : 0 ≤ m1) (h12 : m1 ≤ m2)
    (h2 : m2 ≤ (2 ^ 63 - 1) / 1024) : cpuForDocker m1 ≤ cpuForDocker m2 := by
  have hb : ((2 : Int) ^ 63 - 1) / 1024 = 9007199254740991 := by decide
  rw [hb] at h2
  rw [cpuForDocker_of_fit m1 h0 (by omega), cpuForDocker_of_fit m2 (by omega) h2]
  omega

/-- C19 at 500 and 1000 millicores: 512 and 1024 shares. -/
theorem cpuForDocker_monotone_witness : cpuForDocker 500 ≤ cpuForDocker 1000 :=
  cpuForDocker_monotone 500 1000 (by decide) (by decide) (by decide)

end Realloc
